import Mathlib

/-!
Shallow embedding of `rr_l298n_motor_solenoid_server.py`, the device-control
and command-protocol core of the `iot_pi` model-railroad controller.

Python strings are modelled as `List Char` so that parsing is fully
computable; digital pin levels are `Bool` (pigpio `read`/`write` use 0/1);
PWM duty values and command speeds are `Int` (Python integers).  The pigpio
daemon's pin state is a pair of total maps pin ↦ level and pin ↦ duty, and
every hardware call additionally appends an `Event` to a trace so that the
exact sequence of writes an operation issues can be stated.
-/

namespace IotPi

/-- Python `str`, modelled as its character list. -/
abbrev PyStr := List Char

/-- Python's `s.split(sep)` for a single-character separator: splitting the
empty string yields `[""]`, and separators at the ends yield empty pieces,
exactly as in CPython. -/
def pySplit (c : Char) : PyStr → List PyStr
  | [] => [[]]
  | x :: xs =>
    let r := pySplit c xs
    if x = c then [] :: r
    else
      match r with
      | [] => [[x]]
      | y :: ys => (x :: y) :: ys

/-- Python's `sep.join(parts)` for separator `"_"`. -/
def pyJoinUnderscore (parts : List PyStr) : PyStr :=
  List.intercalate ['_'] parts

/-- Python's `s.startswith(prefix)`. -/
def pyStartsWith (s pre : PyStr) : Bool :=
  List.isPrefixOf pre s

/-- `int(s[-1])` for a Python string `s`: `none` when the `IndexError`
(empty string) or `ValueError` (non-digit last character) is raised. -/
def pyIntOfLastChar (s : PyStr) : Option Nat :=
  match s.getLast? with
  | none => none
  | some c => if c.isDigit then some (c.toNat - 48) else none

/-- One observable hardware interaction with the pigpio daemon. -/
inductive Event where
  | write (pin : Nat) (v : Bool)
  | pwm (pin : Nat) (duty : Int)
  | sleep (seconds : ℚ)
  deriving DecidableEq

/-- The pin of a hardware event, when it addresses one. -/
def Event.pin : Event → Option Nat
  | .write p _ => some p
  | .pwm p _ => some p
  | .sleep _ => none

/-- The pigpio daemon's pin state: digital level and PWM duty per GPIO pin. -/
@[ext] structure GpioState where
  level : Nat → Bool
  duty : Nat → Int

/-- `rpi.read(pin)`. -/
def GpioState.read (g : GpioState) (pin : Nat) : Bool :=
  g.level pin

/-- `rpi.write(pin, v)`. -/
def GpioState.write (g : GpioState) (pin : Nat) (v : Bool) : GpioState :=
  { g with level := fun p => if p = pin then v else g.level p }

/-- `rpi.set_PWM_dutycycle(pin, d)`. -/
def GpioState.setPWMdutycycle (g : GpioState) (pin : Nat) (d : Int) : GpioState :=
  { g with duty := fun p => if p = pin then d else g.duty p }

/-- `DEFAULT_SPEED = 50`. -/
def DEFAULT_SPEED : Int := 50

/-- `SWITCH_TRIGGER_DURATION = 0.5` (seconds), given in lowest terms so the
kernel can evaluate comparisons on it. -/
def SWITCH_TRIGGER_DURATION : ℚ := ⟨1, 2, by decide, by decide⟩

/-- The duration constant is one half of a second. -/
theorem SWITCH_TRIGGER_DURATION_eq : SWITCH_TRIGGER_DURATION = 1 / 2 := by
  unfold SWITCH_TRIGGER_DURATION
  rw [Rat.mk'_eq_divInt, Rat.divInt_eq_div]
  norm_num

/-- Pin triple of one entry of `TRACK_CONFIG`. -/
structure TrackPins where
  nb : Nat
  sb : Nat
  speed : Nat
  deriving DecidableEq

/-- `TRACK_CONFIG`: the static per-track pin map of the source. -/
def TRACK_CONFIG : List (Nat × TrackPins) :=
  [(0, ⟨4, 5, 18⟩), (1, ⟨6, 12, 19⟩), (2, ⟨13, 16, 17⟩), (3, ⟨22, 23, 24⟩)]

/-- Pin triple of one entry of `SWITCH_CONFIG`. -/
structure SwitchPins where
  direct : Nat
  diverge : Nat
  trigger : Nat
  deriving DecidableEq

/-- `SWITCH_CONFIG`: the static per-switch pin map of the source. -/
def SWITCH_CONFIG : List (Nat × SwitchPins) :=
  [(0, ⟨13, 16, 17⟩), (1, ⟨22, 23, 24⟩)]

/-- The `Track` class: pin numbers plus the mutable `current_speed` field
(`__init__` sets it to 0). -/
structure Track where
  track_id : Nat
  nb_pin : Nat
  sb_pin : Nat
  speed_pin : Nat
  current_speed : Int
  deriving DecidableEq

/-- `Track.northbound`: read `nb_pin`, write `1 if current_state == 0 else 0`
back to `nb_pin`, then write 0 to `sb_pin`. -/
def Track.northbound (t : Track) (g : GpioState) : GpioState × List Event :=
  let current_state := g.read t.nb_pin
  let v := if current_state = false then true else false
  ((g.write t.nb_pin v).write t.sb_pin false,
   [Event.write t.nb_pin v, Event.write t.sb_pin false])

/-- `Track.southbound`: read `sb_pin`, write `1 if current_state == 0 else 0`
back to `sb_pin`, then write 0 to `nb_pin`. -/
def Track.southbound (t : Track) (g : GpioState) : GpioState × List Event :=
  let current_state := g.read t.sb_pin
  let v := if current_state = false then true else false
  ((g.write t.sb_pin v).write t.nb_pin false,
   [Event.write t.sb_pin v, Event.write t.nb_pin false])

/-- `Track.stop`: write 0 to both direction pins. -/
def Track.stop (t : Track) (g : GpioState) : GpioState × List Event :=
  ((g.write t.nb_pin false).write t.sb_pin false,
   [Event.write t.nb_pin false, Event.write t.sb_pin false])

/-- `Track.set_speed`: when `0 <= speed <= 255`, record `current_speed` and
issue one PWM-duty write; otherwise log a warning and change nothing. -/
def Track.set_speed (t : Track) (g : GpioState) (speed : Int) :
    Track × GpioState × List Event :=
  if 0 ≤ speed ∧ speed ≤ 255 then
    ({ t with current_speed := speed },
     g.setPWMdutycycle t.speed_pin speed,
     [Event.pwm t.speed_pin speed])
  else
    (t, g, [])

/-- The `Switch` class: three pin numbers, no mutable field. -/
structure Switch where
  switch_id : Nat
  direct_pin : Nat
  diverge_pin : Nat
  trigger_pin : Nat
  deriving DecidableEq

/-- `Switch.direct`: `direct_pin <- 1`, `diverge_pin <- 0`, then the trigger
pulse `trigger_pin <- 1`, sleep, `trigger_pin <- 0`. -/
def Switch.direct (s : Switch) (g : GpioState) : GpioState × List Event :=
  ((((g.write s.direct_pin true).write s.diverge_pin false).write
      s.trigger_pin true).write s.trigger_pin false,
   [Event.write s.direct_pin true, Event.write s.diverge_pin false,
    Event.write s.trigger_pin true, Event.sleep SWITCH_TRIGGER_DURATION,
    Event.write s.trigger_pin false])

/-- `Switch.diverge`: `direct_pin <- 0`, `diverge_pin <- 1`, then the same
trigger pulse. -/
def Switch.diverge (s : Switch) (g : GpioState) : GpioState × List Event :=
  ((((g.write s.direct_pin false).write s.diverge_pin true).write
      s.trigger_pin true).write s.trigger_pin false,
   [Event.write s.direct_pin false, Event.write s.diverge_pin true,
    Event.write s.trigger_pin true, Event.sleep SWITCH_TRIGGER_DURATION,
    Event.write s.trigger_pin false])

/-- Python `dict` lookup (`d[k]` guarded by `k in d`). -/
def dictGet {α : Type} : List (Nat × α) → Nat → Option α
  | [], _ => none
  | (k, v) :: rest, key => if key = k then some v else dictGet rest key

/-- Replacing the entry of one key (a mutation of the object stored in the
Python dict). -/
def dictSet {α : Type} (l : List (Nat × α)) (key : Nat) (v : α) :
    List (Nat × α) :=
  l.map (fun p => if p.1 = key then (key, v) else p)

/-- The mutable state owned by `ModelRailroadController`: the pigpio pin
state plus the track and switch registries. -/
structure ControllerState where
  gpio : GpioState
  tracks : List (Nat × Track)
  switches : List (Nat × Switch)

/-- A decoded JSON request object: the optional `action` string and the
optional numeric `speed` field. -/
structure Request where
  action : Option PyStr
  speed : Option Int

/-- `ModelRailroadController._handle_track_command`. -/
def handle_track_command (st : ControllerState) (track_id : Nat)
    (command : PyStr) (req : Request) : Bool × ControllerState × List Event :=
  match dictGet st.tracks track_id with
  | none => (false, st, [])
  | some track =>
    if command = "nb".data then
      let (g, evs) := track.northbound st.gpio
      (true, { st with gpio := g }, evs)
    else if command = "sb".data then
      let (g, evs) := track.southbound st.gpio
      (true, { st with gpio := g }, evs)
    else if command = "stop".data then
      let (g, evs) := track.stop st.gpio
      (true, { st with gpio := g }, evs)
    else if command = "speed".data then
      let speed := req.speed.getD DEFAULT_SPEED
      let (t, g, evs) := track.set_speed st.gpio speed
      (true, { st with gpio := g, tracks := dictSet st.tracks track_id t }, evs)
    else
      (false, st, [])

/-- `ModelRailroadController._handle_switch_command`. -/
def handle_switch_command (st : ControllerState) (switch_id : Nat)
    (command : PyStr) : Bool × ControllerState × List Event :=
  match dictGet st.switches switch_id with
  | none => (false, st, [])
  | some sw =>
    if command = "direct".data then
      let (g, evs) := sw.direct st.gpio
      (true, { st with gpio := g }, evs)
    else if command = "diverge".data then
      let (g, evs) := sw.diverge st.gpio
      (true, { st with gpio := g }, evs)
    else
      (false, st, [])

/-- `ModelRailroadController.process_command`: parse the action identifier
and dispatch.  `int(parts[0][-1])` runs before the `startswith` tests, and a
raised exception is caught by the surrounding `try`, yielding `False`. -/
def process_command (st : ControllerState) (req : Request) :
    Bool × ControllerState × List Event :=
  match req.action with
  | none => (false, st, [])
  | some action =>
    if action = [] then (false, st, [])
    else
      let parts := pySplit '_' action
      if parts.length < 2 then (false, st, [])
      else
        match parts with
        | [] => (false, st, [])
        | device_type :: rest =>
          match pyIntOfLastChar device_type with
          | none => (false, st, [])
          | some device_id =>
            let command := pyJoinUnderscore rest
            if pyStartsWith device_type "track".data then
              handle_track_command st device_id command req
            else if pyStartsWith device_type "switch".data then
              handle_switch_command st device_id command
            else
              (false, st, [])

/-- What one accepted connection received, after `recv` and `json.loads`:
`noData` is an empty read or a timeout, `malformed` a `JSONDecodeError`. -/
inductive RecvResult where
  | noData
  | malformed
  | parsed (req : Request)

/-- The one-object reply `{"status": ...}`. -/
structure Response where
  status : PyStr
  deriving DecidableEq

/-- The body of the accept loop in `start_server`, for one connection: only
a successfully decoded request reaches `process_command` and gets a status
reply; empty reads, timeouts and JSON decode errors send nothing. -/
def handle_connection (st : ControllerState) (r : RecvResult) :
    Option Response × ControllerState × List Event :=
  match r with
  | .noData => (none, st, [])
  | .malformed => (none, st, [])
  | .parsed req =>
    let (ok, st2, evs) := process_command st req
    (some ⟨if ok then "success".data else "error".data⟩, st2, evs)

/-- The track registry built by `initialize_gpio` from `TRACK_CONFIG`, with
the four `current_speed` fields generalized (they start at 0 and are the
only track fields `set_speed` ever changes). -/
def mkTracks (s0 s1 s2 s3 : Int) : List (Nat × Track) :=
  [(0, ⟨0, 4, 5, 18, s0⟩), (1, ⟨1, 6, 12, 19, s1⟩),
   (2, ⟨2, 13, 16, 17, s2⟩), (3, ⟨3, 22, 23, 24, s3⟩)]

/-- The switch registry built by `initialize_gpio` from `SWITCH_CONFIG`. -/
def mkSwitches : List (Nat × Switch) :=
  [(0, ⟨0, 13, 16, 17⟩), (1, ⟨1, 22, 23, 24⟩)]

/-- A controller state with the configured registries: arbitrary pin state
and arbitrary recorded speeds, covering every state reachable after
`initialize_gpio`. -/
def mkState (g : GpioState) (s0 s1 s2 s3 : Int) : ControllerState :=
  ⟨g, mkTracks s0 s1 s2 s3, mkSwitches⟩

/-- `mkTracks` at the initial speeds is exactly the registry built from
`TRACK_CONFIG` with `current_speed = 0`. -/
theorem mkTracks_eq_config :
    mkTracks 0 0 0 0 =
      TRACK_CONFIG.map (fun p => (p.1, ⟨p.1, p.2.nb, p.2.sb, p.2.speed, 0⟩)) := by
  decide

/-- `mkSwitches` is exactly the registry built from `SWITCH_CONFIG`. -/
theorem mkSwitches_eq_config :
    mkSwitches =
      SWITCH_CONFIG.map (fun p => (p.1, ⟨p.1, p.2.direct, p.2.diverge, p.2.trigger⟩)) := by
  decide

/-- An all-off pin state, used to instantiate universally quantified
theorems at a concrete input. -/
def gOff : GpioState := ⟨fun _ => false, fun _ => 0⟩

/-- The configured state with all pins off and all speeds zero. -/
def stOff : ControllerState := mkState gOff 0 0 0 0

/-- The speed pin of track `t` according to `TRACK_CONFIG`. -/
def speedPinOf (t : Nat) : Nat :=
  ((dictGet TRACK_CONFIG t).map TrackPins.speed).getD 0

/-- The action string `track<t>_speed` for a single-digit track id. -/
def trackSpeedAction (t : Nat) : PyStr :=
  "track".data ++ [Char.ofNat (48 + t)] ++ "_speed".data

@[simp] theorem GpioState.level_write (g : GpioState) (pin : Nat) (v : Bool)
    (q : Nat) : (g.write pin v).level q = if q = pin then v else g.level q := rfl

@[simp] theorem GpioState.duty_write (g : GpioState) (pin : Nat) (v : Bool) :
    (g.write pin v).duty = g.duty := rfl

@[simp] theorem GpioState.level_setPWM (g : GpioState) (pin : Nat) (d : Int) :
    (g.setPWMdutycycle pin d).level = g.level := rfl

@[simp] theorem GpioState.duty_setPWM (g : GpioState) (pin : Nat) (d : Int)
    (q : Nat) :
    (g.setPWMdutycycle pin d).duty q = if q = pin then d else g.duty q := rfl

/-- `Track.set_speed` on an in-range speed: record it and issue the PWM
write. -/
theorem Track.set_speed_in_range (t : Track) (g : GpioState) (s : Int)
    (h1 : 0 ≤ s) (h2 : s ≤ 255) :
    t.set_speed g s =
      ({ t with current_speed := s }, g.setPWMdutycycle t.speed_pin s,
       [Event.pwm t.speed_pin s]) := by
  simp [Track.set_speed, h1, h2]

/-- `Track.set_speed` on an out-of-range speed: nothing changes. -/
theorem Track.set_speed_out_of_range (t : Track) (g : GpioState) (s : Int)
    (h : ¬(0 ≤ s ∧ s ≤ 255)) : t.set_speed g s = (t, g, []) := by
  simp only [Track.set_speed, if_neg h]

/-- A successful `dictGet` finds an entry of the association list. -/
theorem dictGet_mem {α : Type} (l : List (Nat × α)) (key : Nat) (v : α)
    (h : dictGet l key = some v) : (key, v) ∈ l := by
  induction l with
  | nil => simp [dictGet] at h
  | cons p rest ih =>
    obtain ⟨k, w⟩ := p
    by_cases hk : key = k
    · subst hk
      simp [dictGet] at h
      simp [h]
    · simp [dictGet, hk] at h
      exact List.mem_cons_of_mem _ (ih h)

/-- C7. `Track.northbound` complements `nb_pin`, clears `sb_pin`, and is a
toggle: two consecutive calls restore `nb_pin`, so a second call changes the
pin a first call set — `northbound` is not idempotent. -/
theorem C7_northbound_toggle (t : Track) (g : GpioState)
    (hpins : t.nb_pin ≠ t.sb_pin) :
    (t.northbound g).1.level t.nb_pin = !(g.level t.nb_pin) ∧
    (t.northbound g).1.level t.sb_pin = false ∧
    (t.northbound (t.northbound g).1).1.level t.nb_pin = g.level t.nb_pin ∧
    (t.northbound (t.northbound g).1).1.level t.nb_pin ≠
      (t.northbound g).1.level t.nb_pin := by
  cases h : g.level t.nb_pin <;>
    simp [Track.northbound, GpioState.read, h, hpins, Ne.symm hpins]

/-- C7 witness: the toggle law at track 0's configured pins from the all-off
pin state. -/
theorem C7_northbound_toggle_witness :
    ((⟨0, 4, 5, 18, 0⟩ : Track).northbound gOff).1.level 4 = !(gOff.level 4) ∧
    ((⟨0, 4, 5, 18, 0⟩ : Track).northbound gOff).1.level 5 = false ∧
    ((⟨0, 4, 5, 18, 0⟩ : Track).northbound
        ((⟨0, 4, 5, 18, 0⟩ : Track).northbound gOff).1).1.level 4 =
      gOff.level 4 ∧
    ((⟨0, 4, 5, 18, 0⟩ : Track).northbound
        ((⟨0, 4, 5, 18, 0⟩ : Track).northbound gOff).1).1.level 4 ≠
      ((⟨0, 4, 5, 18, 0⟩ : Track).northbound gOff).1.level 4 :=
  C7_northbound_toggle ⟨0, 4, 5, 18, 0⟩ gOff (by decide)

/-- C8. From every prior pin state, `Switch.direct` issues exactly the
sequence `direct_pin <- 1`, `diverge_pin <- 0`, `trigger_pin <- 1`, hold for
`SWITCH_TRIGGER_DURATION`, `trigger_pin <- 0` (and `Switch.diverge` the
mirror), so both operations terminate with `trigger_pin` at 0. -/
theorem C8_trigger_pulse (s : Switch) (g : GpioState) :
    ((s.direct g).1.level s.trigger_pin = false ∧
     (s.direct g).2 =
       [Event.write s.direct_pin true, Event.write s.diverge_pin false,
        Event.write s.trigger_pin true, Event.sleep SWITCH_TRIGGER_DURATION,
        Event.write s.trigger_pin false]) ∧
    ((s.diverge g).1.level s.trigger_pin = false ∧
     (s.diverge g).2 =
       [Event.write s.direct_pin false, Event.write s.diverge_pin true,
        Event.write s.trigger_pin true, Event.sleep SWITCH_TRIGGER_DURATION,
        Event.write s.trigger_pin false]) := by
  refine ⟨⟨?_, rfl⟩, ⟨?_, rfl⟩⟩ <;> simp [Switch.direct, Switch.diverge]

/-- C9. `Track.stop` writes 0 to both direction pins unconditionally and is
idempotent on the pin state; end-to-end, a `track0_stop` request from any
configured state is answered `{"status": "success"}` and leaves track 0's
direction pins (GPIO 4 and 5) de-asserted. -/
theorem C9_stop_idempotent (t : Track) (g g2 : GpioState)
    (s0 s1 s2 s3 : Int) :
    (t.stop g).1.level t.nb_pin = false ∧
    (t.stop g).1.level t.sb_pin = false ∧
    (t.stop (t.stop g).1).1 = (t.stop g).1 ∧
    (handle_connection (mkState g2 s0 s1 s2 s3)
        (.parsed ⟨some "track0_stop".data, none⟩)).1 =
      some ⟨"success".data⟩ ∧
    (handle_connection (mkState g2 s0 s1 s2 s3)
        (.parsed ⟨some "track0_stop".data, none⟩)).2.1.gpio.level 4 = false ∧
    (handle_connection (mkState g2 s0 s1 s2 s3)
        (.parsed ⟨some "track0_stop".data, none⟩)).2.1.gpio.level 5 = false := by
  refine ⟨?_, ?_, ?_, rfl, ?_, ?_⟩
  · simp [Track.stop]
  · simp [Track.stop]
  · ext p
    · by_cases h1 : p = t.sb_pin <;> by_cases h2 : p = t.nb_pin <;>
        simp [Track.stop, h1, h2]
    · rfl
  · rfl
  · rfl

/-- C10. For every configured track id `t` and in-range speed `s`, the
command `track<t>_speed` with argument `s` succeeds, issues exactly one
PWM-duty write of value `s` to that track's speed pin, and records
`current_speed(t) = s`. -/
theorem C10_set_speed (t : Nat) (ht : t < 4) (g : GpioState)
    (s0 s1 s2 s3 s : Int) (hs : 0 ≤ s ∧ s ≤ 255) :
    (process_command (mkState g s0 s1 s2 s3)
        ⟨some (trackSpeedAction t), some s⟩).1 = true ∧
    (process_command (mkState g s0 s1 s2 s3)
        ⟨some (trackSpeedAction t), some s⟩).2.2 =
      [Event.pwm (speedPinOf t) s] ∧
    (dictGet (process_command (mkState g s0 s1 s2 s3)
        ⟨some (trackSpeedAction t), some s⟩).2.1.tracks t).map
      Track.current_speed = some s := by
  have hset : ∀ tr : Track, tr.set_speed g s =
      ({ tr with current_speed := s }, g.setPWMdutycycle tr.speed_pin s,
       [Event.pwm tr.speed_pin s]) :=
    fun tr => Track.set_speed_in_range tr g s hs.1 hs.2
  interval_cases t
  · simp [process_command, trackSpeedAction, pySplit, pyIntOfLastChar,
      pyJoinUnderscore, pyStartsWith, handle_track_command, dictGet, dictSet,
      hset, mkState, mkTracks, speedPinOf, TRACK_CONFIG, List.intercalate]
    show ((⟨0, 4, 5, 18, s0⟩ : Track).set_speed g s).1.current_speed = s
    rw [hset]
  · simp [process_command, trackSpeedAction, pySplit, pyIntOfLastChar,
      pyJoinUnderscore, pyStartsWith, handle_track_command, dictGet, dictSet,
      hset, mkState, mkTracks, speedPinOf, TRACK_CONFIG, List.intercalate]
    show ((⟨1, 6, 12, 19, s1⟩ : Track).set_speed g s).1.current_speed = s
    rw [hset]
  · simp [process_command, trackSpeedAction, pySplit, pyIntOfLastChar,
      pyJoinUnderscore, pyStartsWith, handle_track_command, dictGet, dictSet,
      hset, mkState, mkTracks, speedPinOf, TRACK_CONFIG, List.intercalate]
    show ((⟨2, 13, 16, 17, s2⟩ : Track).set_speed g s).1.current_speed = s
    rw [hset]
  · simp [process_command, trackSpeedAction, pySplit, pyIntOfLastChar,
      pyJoinUnderscore, pyStartsWith, handle_track_command, dictGet, dictSet,
      hset, mkState, mkTracks, speedPinOf, TRACK_CONFIG, List.intercalate]
    show ((⟨3, 22, 23, 24, s3⟩ : Track).set_speed g s).1.current_speed = s
    rw [hset]

/-- C10 witness: `track2_speed` with argument 200. -/
theorem C10_set_speed_witness :
    (process_command (mkState gOff 0 0 0 0)
        ⟨some (trackSpeedAction 2), some 200⟩).1 = true ∧
    (process_command (mkState gOff 0 0 0 0)
        ⟨some (trackSpeedAction 2), some 200⟩).2.2 =
      [Event.pwm (speedPinOf 2) 200] ∧
    (dictGet (process_command (mkState gOff 0 0 0 0)
        ⟨some (trackSpeedAction 2), some 200⟩).2.1.tracks 2).map
      Track.current_speed = some 200 :=
  C10_set_speed 2 (by decide) gOff 0 0 0 0 200 (by decide)

/-- C1 counterexample: `track0_speed` with the out-of-range argument 300 is
answered `{"status": "success"}`, not `{"status": "error"}` — the rejection
is not observable to the client (though no hardware event is issued). -/
theorem C1_counterexample :
    (handle_connection stOff (.parsed ⟨some "track0_speed".data, some 300⟩)).1 =
      some ⟨"success".data⟩ ∧
    (handle_connection stOff (.parsed ⟨some "track0_speed".data, some 300⟩)).1 ≠
      some ⟨"error".data⟩ ∧
    (handle_connection stOff (.parsed ⟨some "track0_speed".data, some 300⟩)).2.2 =
      [] := by
  exact ⟨by decide, by decide, by decide⟩

/-- C1 (amended). For every configured track `t` and integer `s` outside
`[0,255]`, processing `track<t>_speed` with argument `s` leaves the whole
controller state (including `current_speed` and all pin and PWM state)
unchanged and issues no hardware event, but the command is *not* rejected:
`process_command` returns `True` and the server replies
`{"status": "success"}`; the rejection is only logged server-side. -/
theorem C1_speed_out_of_range (t : Nat) (ht : t < 4) (g : GpioState)
    (s0 s1 s2 s3 s : Int) (hs : ¬(0 ≤ s ∧ s ≤ 255)) :
    process_command (mkState g s0 s1 s2 s3)
        ⟨some (trackSpeedAction t), some s⟩ =
      (true, mkState g s0 s1 s2 s3, []) ∧
    (handle_connection (mkState g s0 s1 s2 s3)
        (.parsed ⟨some (trackSpeedAction t), some s⟩)).1 =
      some ⟨"success".data⟩ := by
  have hset : ∀ tr : Track, tr.set_speed g s = (tr, g, []) :=
    fun tr => Track.set_speed_out_of_range tr g s hs
  have h1 : process_command (mkState g s0 s1 s2 s3)
      ⟨some (trackSpeedAction t), some s⟩ =
      (true, mkState g s0 s1 s2 s3, []) := by
    interval_cases t <;>
      simp [process_command, trackSpeedAction, pySplit, pyIntOfLastChar,
        pyJoinUnderscore, pyStartsWith, handle_track_command, dictGet, dictSet,
        hset, mkState, mkTracks, TRACK_CONFIG, List.intercalate]
  exact ⟨h1, by simp [handle_connection, h1]⟩

/-- C1 witness: track 0 with speed 300 from the all-off state. -/
theorem C1_speed_out_of_range_witness :
    process_command (mkState gOff 0 0 0 0)
        ⟨some (trackSpeedAction 0), some 300⟩ =
      (true, mkState gOff 0 0 0 0, []) ∧
    (handle_connection (mkState gOff 0 0 0 0)
        (.parsed ⟨some (trackSpeedAction 0), some 300⟩)).1 =
      some ⟨"success".data⟩ :=
  C1_speed_out_of_range 0 (by decide) gOff 0 0 0 0 300 (by decide)

/-- C4 counterexample: `track0_speed` with no speed field in the request is
not rejected — it sets the default speed 50: one PWM write of 50 is issued
and `current_speed(0)` becomes 50, and the command reports success. -/
theorem C4_counterexample :
    (process_command stOff ⟨some "track0_speed".data, none⟩).1 = true ∧
    (process_command stOff ⟨some "track0_speed".data, none⟩).2.2 =
      [Event.pwm 18 50] ∧
    (dictGet (process_command stOff
        ⟨some "track0_speed".data, none⟩).2.1.tracks 0).map
      Track.current_speed = some 50 := by
  exact ⟨by decide, by decide, by decide⟩

/-- C4 (amended). For every configured track `t`, a `track<t>_speed` command
whose request carries no `speed` field is *not* a validation failure: the
code substitutes `DEFAULT_SPEED = 50`, issues exactly one PWM write of 50 to
the track's speed pin, records `current_speed(t) = 50`, and succeeds. -/
theorem C4_missing_speed_uses_default (t : Nat) (ht : t < 4) (g : GpioState)
    (s0 s1 s2 s3 : Int) :
    (process_command (mkState g s0 s1 s2 s3)
        ⟨some (trackSpeedAction t), none⟩).1 = true ∧
    (process_command (mkState g s0 s1 s2 s3)
        ⟨some (trackSpeedAction t), none⟩).2.2 =
      [Event.pwm (speedPinOf t) DEFAULT_SPEED] ∧
    (dictGet (process_command (mkState g s0 s1 s2 s3)
        ⟨some (trackSpeedAction t), none⟩).2.1.tracks t).map
      Track.current_speed = some DEFAULT_SPEED := by
  have hset : ∀ tr : Track, tr.set_speed g DEFAULT_SPEED =
      ({ tr with current_speed := DEFAULT_SPEED },
       g.setPWMdutycycle tr.speed_pin DEFAULT_SPEED,
       [Event.pwm tr.speed_pin DEFAULT_SPEED]) :=
    fun tr => Track.set_speed_in_range tr g DEFAULT_SPEED (by decide) (by decide)
  interval_cases t <;>
    simp [process_command, trackSpeedAction, pySplit, pyIntOfLastChar,
      pyJoinUnderscore, pyStartsWith, handle_track_command, dictGet, dictSet,
      hset, mkState, mkTracks, speedPinOf, TRACK_CONFIG, List.intercalate]

/-- C4 witness: track 0 with the speed field absent, from the all-off
state. -/
theorem C4_missing_speed_uses_default_witness :
    (process_command (mkState gOff 0 0 0 0)
        ⟨some (trackSpeedAction 0), none⟩).1 = true ∧
    (process_command (mkState gOff 0 0 0 0)
        ⟨some (trackSpeedAction 0), none⟩).2.2 =
      [Event.pwm (speedPinOf 0) DEFAULT_SPEED] ∧
    (dictGet (process_command (mkState gOff 0 0 0 0)
        ⟨some (trackSpeedAction 0), none⟩).2.1.tracks 0).map
      Track.current_speed = some DEFAULT_SPEED :=
  C4_missing_speed_uses_default 0 (by decide) gOff 0 0 0 0

/-- C5 counterexample: a request that decodes to a JSON object with no
`action` key is answered with `{"status": "error"}` — a status reply *is*
emitted on the missing-field path, it is not silently closed. -/
theorem C5_counterexample :
    (handle_connection stOff (.parsed ⟨none, none⟩)).1 = some ⟨"error".data⟩ ∧
    (handle_connection stOff (.parsed ⟨none, none⟩)).1 ≠ none := by
  exact ⟨by decide, by decide⟩

/-- C5 (amended). Empty reads / timeouts and undecodable (malformed JSON)
payloads close the connection with no status reply, but a payload that
decodes to an object *missing the `action` key* is not silent: it is
answered `{"status": "error"}` (with no hardware side effect in all three
cases). -/
theorem C5_protocol_errors (g : GpioState) (s0 s1 s2 s3 : Int)
    (sp : Option Int) :
    handle_connection (mkState g s0 s1 s2 s3) .noData =
      (none, mkState g s0 s1 s2 s3, []) ∧
    handle_connection (mkState g s0 s1 s2 s3) .malformed =
      (none, mkState g s0 s1 s2 s3, []) ∧
    handle_connection (mkState g s0 s1 s2 s3) (.parsed ⟨none, sp⟩) =
      (some ⟨"error".data⟩, mkState g s0 s1 s2 s3, []) := by
  exact ⟨rfl, rfl, rfl⟩

/-- The spec's track-direction interlock: for every configured track, at
most one of its two direction pins is logically asserted. -/
def DirectionInvariant (g : GpioState) : Prop :=
  ∀ p ∈ TRACK_CONFIG, ¬(g.level p.2.nb = true ∧ g.level p.2.sb = true)

instance (g : GpioState) : Decidable (DirectionInvariant g) := by
  unfold DirectionInvariant
  infer_instance

/-- `Track.set_speed` never changes any digital pin level. -/
theorem Track.set_speed_level (t : Track) (g : GpioState) (v : Int) :
    (t.set_speed g v).2.1.level = g.level := by
  unfold Track.set_speed
  split <;> rfl

/-- C6. Every device operation of the configured registries — `northbound`,
`southbound`, `stop` and `set_speed` on each configured track, `direct` and
`diverge` on each configured switch — preserves the property that for every
configured track at most one of its direction pins is asserted, despite
switches 0 and 1 sharing their pins with tracks 2 and 3. -/
theorem C6_direction_invariant (g : GpioState) (s0 s1 s2 s3 v : Int)
    (h : DirectionInvariant g) :
    (∀ p ∈ mkTracks s0 s1 s2 s3,
       DirectionInvariant (p.2.northbound g).1 ∧
       DirectionInvariant (p.2.southbound g).1 ∧
       DirectionInvariant (p.2.stop g).1 ∧
       DirectionInvariant (p.2.set_speed g v).2.1) ∧
    (∀ q ∈ mkSwitches,
       DirectionInvariant (q.2.direct g).1 ∧
       DirectionInvariant (q.2.diverge g).1) := by
  have h0 := h (0, ⟨4, 5, 18⟩) (by decide)
  have h1 := h (1, ⟨6, 12, 19⟩) (by decide)
  have h2 := h (2, ⟨13, 16, 17⟩) (by decide)
  have h3 := h (3, ⟨22, 23, 24⟩) (by decide)
  simp only [not_and, Bool.not_eq_true] at h0 h1 h2 h3
  constructor
  · intro p hp
    fin_cases hp <;>
      refine ⟨?_, ?_, ?_, ?_⟩ <;> intro q hq <;> fin_cases hq <;>
        simp [Track.northbound, Track.southbound, Track.stop,
          GpioState.read, Track.set_speed_level] <;>
        tauto
  · intro q hq
    fin_cases hq <;>
      refine ⟨?_, ?_⟩ <;> intro p hp <;> fin_cases hp <;>
        simp [Switch.direct, Switch.diverge] <;>
        tauto

/-- C6 witness: the invariant holds of the all-off pin state and is kept by
each operation there (speed argument 100). -/
theorem C6_direction_invariant_witness :
    DirectionInvariant gOff ∧
    ((∀ p ∈ mkTracks 0 0 0 0,
       DirectionInvariant (p.2.northbound gOff).1 ∧
       DirectionInvariant (p.2.southbound gOff).1 ∧
       DirectionInvariant (p.2.stop gOff).1 ∧
       DirectionInvariant (p.2.set_speed gOff 100).2.1) ∧
     (∀ q ∈ mkSwitches,
       DirectionInvariant (q.2.direct gOff).1 ∧
       DirectionInvariant (q.2.diverge gOff).1)) :=
  ⟨by decide, C6_direction_invariant gOff 0 0 0 0 100 (by decide)⟩

/-- The three pins owned by a `Track` object. -/
def trackPinList (t : Track) : List Nat := [t.nb_pin, t.sb_pin, t.speed_pin]

/-- The three pins owned by a `Switch` object. -/
def switchPinList (s : Switch) : List Nat :=
  [s.direct_pin, s.diverge_pin, s.trigger_pin]

/-- The pin sets of the configured devices, one entry per device. -/
def devicePinSets : List (List Nat) :=
  TRACK_CONFIG.map (fun p => [p.2.nb, p.2.sb, p.2.speed]) ++
  SWITCH_CONFIG.map (fun p => [p.2.direct, p.2.diverge, p.2.trigger])

/-- `Track.set_speed` issues either exactly its one PWM write or nothing. -/
theorem Track.set_speed_events (t : Track) (g : GpioState) (s : Int) :
    (t.set_speed g s).2.2 = [Event.pwm t.speed_pin s] ∨
    (t.set_speed g s).2.2 = [] := by
  unfold Track.set_speed
  split
  · exact Or.inl rfl
  · exact Or.inr rfl

/-- A track command only ever touches pins of the one track it addresses. -/
theorem handle_track_command_pins (st : ControllerState) (id : Nat)
    (cmd : PyStr) (req : Request) :
    (handle_track_command st id cmd req).2.2 = [] ∨
    ∃ p ∈ st.tracks, ∀ e ∈ (handle_track_command st id cmd req).2.2,
      ∀ q, Event.pin e = some q → q ∈ trackPinList p.2 := by
  unfold handle_track_command
  cases hg : dictGet st.tracks id with
  | none => exact Or.inl rfl
  | some tr =>
    refine Or.inr ⟨(id, tr), dictGet_mem _ _ _ hg, ?_⟩
    by_cases h1 : cmd = "nb".data
    · simp only [h1, if_pos rfl]
      intro e he
      simp [Track.northbound] at he
      rcases he with he | he <;> subst he <;>
        simp [Event.pin, trackPinList]
    · by_cases h2 : cmd = "sb".data
      · simp only [h1, h2, if_neg, if_pos rfl, ite_false]
        intro e he
        simp [Track.southbound] at he
        rcases he with he | he <;> subst he <;>
          simp [Event.pin, trackPinList]
      · by_cases h3 : cmd = "stop".data
        · simp only [h1, h2, h3, ite_false, if_pos rfl]
          intro e he
          simp [Track.stop] at he
          rcases he with he | he <;> subst he <;>
            simp [Event.pin, trackPinList]
        · by_cases h4 : cmd = "speed".data
          · simp only [h1, h2, h3, h4, ite_false, if_pos rfl]
            intro e he
            rcases Track.set_speed_events tr st.gpio
                (req.speed.getD DEFAULT_SPEED) with hev | hev <;>
              simp [hev] at he
            subst he
            simp [Event.pin, trackPinList]
          · simp only [h1, h2, h3, h4, ite_false]
            intro e he
            simp at he


/-- A switch command only ever touches pins of the one switch it
addresses. -/
theorem handle_switch_command_pins (st : ControllerState) (id : Nat)
    (cmd : PyStr) :
    (handle_switch_command st id cmd).2.2 = [] ∨
    ∃ p ∈ st.switches, ∀ e ∈ (handle_switch_command st id cmd).2.2,
      ∀ q, Event.pin e = some q → q ∈ switchPinList p.2 := by
  unfold handle_switch_command
  cases hg : dictGet st.switches id with
  | none => exact Or.inl rfl
  | some sw =>
    refine Or.inr ⟨(id, sw), dictGet_mem _ _ _ hg, ?_⟩
    by_cases h1 : cmd = "direct".data
    · simp only [h1, if_pos rfl]
      intro e he
      simp [Switch.direct] at he
      rcases he with he | he | he | he | he <;> subst he <;>
        simp [Event.pin, switchPinList]
    · by_cases h2 : cmd = "diverge".data
      · simp only [h1, h2, ite_false, if_pos rfl]
        intro e he
        simp [Switch.diverge] at he
        rcases he with he | he | he | he | he <;> subst he <;>
          simp [Event.pin, switchPinList]
      · simp only [h1, h2, ite_false]
        intro e he
        simp at he

/-- Dispatch routes one command to at most one device object: every hardware
event it emits addresses a pin of a single registered track or a single
registered switch. -/
theorem process_command_single_device (st : ControllerState) (req : Request) :
    (process_command st req).2.2 = [] ∨
    (∃ p ∈ st.tracks, ∀ e ∈ (process_command st req).2.2,
       ∀ q, Event.pin e = some q → q ∈ trackPinList p.2) ∨
    (∃ p ∈ st.switches, ∀ e ∈ (process_command st req).2.2,
       ∀ q, Event.pin e = some q → q ∈ switchPinList p.2) := by
  obtain ⟨act, sp⟩ := req
  cases act with
  | none => exact Or.inl rfl
  | some a =>
    unfold process_command
    by_cases ha : a = []
    · simp [ha]
    · simp only [ha, if_neg, ite_false]
      by_cases hl : (pySplit '_' a).length < 2
      · simp [hl]
      · simp only [hl, ite_false]
        cases hp : pySplit '_' a with
        | nil => simp [hp] at hl
        | cons d0 rest =>
          simp only
          cases hd : pyIntOfLastChar d0 with
          | none => simp
          | some id =>
            simp only
            by_cases ht : pyStartsWith d0 "track".data
            · simp only [ht, if_pos rfl]
              rcases handle_track_command_pins st id
                  (pyJoinUnderscore rest) ⟨some a, sp⟩ with h | h
              · exact Or.inl h
              · exact Or.inr (Or.inl h)
            · by_cases hs : pyStartsWith d0 "switch".data
              · simp only [ht, hs, ite_false, if_pos rfl]
                rcases handle_switch_command_pins st id
                    (pyJoinUnderscore rest) with h | h
                · exact Or.inl h
                · exact Or.inr (Or.inr h)
              · simp [ht, hs]

/-- C2 counterexample: executing `switch0_direct` succeeds and raises GPIO
pin 13 — which is track 2's northbound direction pin — so one switch command
does change a physical pin owned by a track. -/
theorem C2_counterexample :
    (process_command stOff ⟨some "switch0_direct".data, none⟩).1 = true ∧
    (dictGet stOff.tracks 2).map Track.nb_pin = some 13 ∧
    stOff.gpio.level 13 = false ∧
    (process_command stOff
        ⟨some "switch0_direct".data, none⟩).2.1.gpio.level 13 = true := by
  exact ⟨by decide, by decide, by decide, by decide⟩

/-- C2 (amended). Each command mutates at most one device *object*: every
hardware event a single command emits addresses pins inside one configured
device's own pin triple.  Because the static configuration assigns switch 0
the same physical pins as track 2 (13, 16, 17) and switch 1 the same pins as
track 3 (22, 23, 24), a switch command does change pins that are also a
track's direction and speed pins; the per-physical-pin frame property of the
claim fails. -/
theorem C2_single_device (g : GpioState) (s0 s1 s2 s3 : Int) (req : Request) :
    ∃ pins ∈ devicePinSets,
      ∀ e ∈ (process_command (mkState g s0 s1 s2 s3) req).2.2,
        ∀ q, Event.pin e = some q → q ∈ pins := by
  rcases process_command_single_device (mkState g s0 s1 s2 s3) req with
    h | ⟨p, hp, h⟩ | ⟨p, hp, h⟩
  · exact ⟨[4, 5, 18], by decide, by simp [h]⟩
  · fin_cases hp <;>
      exact ⟨_, by simp [trackPinList, devicePinSets, TRACK_CONFIG,
        SWITCH_CONFIG], h⟩
  · fin_cases hp <;>
      exact ⟨_, by simp [switchPinList, devicePinSets, TRACK_CONFIG,
        SWITCH_CONFIG], h⟩


/-- A track command reports success only if its device id is a key of the
track registry. -/
theorem handle_track_command_true (st : ControllerState) (id : Nat)
    (cmd : PyStr) (req : Request)
    (h : (handle_track_command st id cmd req).1 = true) :
    (dictGet st.tracks id).isSome = true := by
  unfold handle_track_command at h
  cases hg : dictGet st.tracks id with
  | none => rw [hg] at h; simp at h
  | some tr => rfl

/-- A switch command reports success only if its device id is a key of the
switch registry. -/
theorem handle_switch_command_true (st : ControllerState) (id : Nat)
    (cmd : PyStr)
    (h : (handle_switch_command st id cmd).1 = true) :
    (dictGet st.switches id).isSome = true := by
  unfold handle_switch_command at h
  cases hg : dictGet st.switches id with
  | none => rw [hg] at h; simp at h
  | some sw => rfl

/-- C3 counterexample: the action `track12_stop` — whose text before the
first underscore is not `track` followed by a single digit — is *not*
rejected: it executes a device operation, on track 2 (the digit taken is the
token's last character, not the one after the prefix). -/
theorem C3_counterexample :
    (process_command stOff ⟨some "track12_stop".data, none⟩).1 = true ∧
    (process_command stOff ⟨some "track12_stop".data, none⟩).2.2 =
      [Event.write 13 false, Event.write 16 false] ∧
    (dictGet stOff.tracks 2).map trackPinList = some [13, 16, 17] := by
  exact ⟨by decide, by decide, by decide⟩

/-- C3 (amended). A device operation is executed only when the first
underscore-separated token of the action *starts with* `track` or `switch`
(not: is exactly that literal) and the token's *last* character is a decimal
digit; the device id used for dispatch is that last character's digit value,
which must be a key of the corresponding registry.  Any action whose first
token starts with neither `track` nor `switch` is rejected with no hardware
side effect. -/
theorem C3_parse_rule (st : ControllerState) (a : PyStr) (sp : Option Int) :
    (pyStartsWith ((pySplit '_' a).headD []) "track".data = false →
     pyStartsWith ((pySplit '_' a).headD []) "switch".data = false →
     process_command st ⟨some a, sp⟩ = (false, st, [])) ∧
    ((process_command st ⟨some a, sp⟩).1 = true →
     ∃ d, pyIntOfLastChar ((pySplit '_' a).headD []) = some d ∧
       ((pyStartsWith ((pySplit '_' a).headD []) "track".data = true ∧
         (dictGet st.tracks d).isSome = true) ∨
        (pyStartsWith ((pySplit '_' a).headD []) "switch".data = true ∧
         (dictGet st.switches d).isSome = true))) := by
  constructor
  · intro h1 h2
    unfold process_command
    by_cases ha : a = []
    · simp [ha]
    · by_cases hl : (pySplit '_' a).length < 2
      · simp [ha, hl]
      · cases hp : pySplit '_' a with
        | nil => simp [hp] at hl
        | cons d0 rest =>
          rw [hp] at h1 h2
          simp only [List.headD_cons] at h1 h2
          cases hd : pyIntOfLastChar d0 with
          | none => simp [ha, hl, hp, hd]
          | some id => simp [ha, hl, hp, hd, h1, h2]
  · intro hok
    by_cases ha : a = []
    · have heq : process_command st ⟨some a, sp⟩ = (false, st, []) := by
        unfold process_command
        simp [ha]
      rw [heq] at hok
      simp at hok
    · by_cases hl : (pySplit '_' a).length < 2
      · have heq : process_command st ⟨some a, sp⟩ = (false, st, []) := by
          unfold process_command
          simp [ha, hl]
        rw [heq] at hok
        simp at hok
      · cases hp : pySplit '_' a with
        | nil => simp [hp] at hl
        | cons d0 rest =>
          have hl2 : ¬((d0 :: rest).length < 2) := by
            rw [hp] at hl
            exact hl
          simp only [hp, List.headD_cons]
          cases hd : pyIntOfLastChar d0 with
          | none =>
            have heq : process_command st ⟨some a, sp⟩ = (false, st, []) := by
              unfold process_command
              simp [ha, hp, hl2, hd]
            rw [heq] at hok
            simp at hok
          | some id =>
            refine ⟨id, rfl, ?_⟩
            by_cases ht : pyStartsWith d0 "track".data
            · have heq : process_command st ⟨some a, sp⟩ =
                  handle_track_command st id
                    (pyJoinUnderscore rest) ⟨some a, sp⟩ := by
                unfold process_command
                simp [ha, hp, hl2, hd, ht]
                intro hc
                simp at hl2
                omega
              rw [heq] at hok
              exact Or.inl ⟨ht, handle_track_command_true _ _ _ _ hok⟩
            · by_cases hs : pyStartsWith d0 "switch".data
              · have heq : process_command st ⟨some a, sp⟩ =
                    handle_switch_command st id (pyJoinUnderscore rest) := by
                  unfold process_command
                  simp [ha, hp, hl2, hd, ht, hs]
                  intro hc
                  simp at hl2
                  omega
                rw [heq] at hok
                exact Or.inr ⟨hs, handle_switch_command_true _ _ _ hok⟩
              · have heq : process_command st ⟨some a, sp⟩ =
                    (false, st, []) := by
                  unfold process_command
                  simp [ha, hp, hl2, hd, ht, hs]
                rw [heq] at hok
                simp at hok

/-- C3 witness: `bogus_foo` is rejected with no side effect, and
`track12_stop` (which succeeds) satisfies the amended dispatch conditions
with id 2. -/
theorem C3_parse_rule_witness :
    process_command stOff ⟨some "bogus_foo".data, none⟩ = (false, stOff, []) ∧
    (∃ d, pyIntOfLastChar
        ((pySplit '_' "track12_stop".data).headD []) = some d ∧
      ((pyStartsWith ((pySplit '_' "track12_stop".data).headD [])
          "track".data = true ∧
        (dictGet stOff.tracks d).isSome = true) ∨
       (pyStartsWith ((pySplit '_' "track12_stop".data).headD [])
          "switch".data = true ∧
        (dictGet stOff.switches d).isSome = true))) :=
  ⟨(C3_parse_rule stOff "bogus_foo".data none).1 (by decide) (by decide),
   (C3_parse_rule stOff "track12_stop".data none).2 (by decide)⟩


end IotPi
